import Mathlib

/-!
Shallow embedding of the room matchmaking backend (`src/app/model.py`).
The MySQL tables `user`, `room` and `room_member` are modelled as lists of
rows inside a `DB` state; each top-level model function takes the current
`DB` and returns its result together with the updated `DB`.  A Python
exception escaping a function (e.g. an `AttributeError` on `None`) aborts
the enclosing transaction, which is modelled by returning `none`.
-/

/-- Mirrors `WaitRoomStatus` in model.py: Waiting=1, LiveStart=2, Dissolution=3. -/
inductive WaitRoomStatus where
  | Waiting
  | LiveStart
  | Dissolution
deriving DecidableEq

/-- Mirrors `LiveDifficulty` in model.py: normal=1, hard=2. -/
inductive LiveDifficulty where
  | normal
  | hard
deriving DecidableEq

/-- Mirrors `JoinRoomResult` in model.py: Ok=1, RoomFull=2, Disbanded=3, OtherError=4. -/
inductive JoinRoomResult where
  | Ok
  | RoomFull
  | Disbanded
  | OtherError
deriving DecidableEq

/-- Mirrors `SafeUser` in model.py (a user record without its token). -/
structure SafeUser where
  id : Int
  name : String
  leader_card_id : Int
deriving DecidableEq

/-- A row of the `user` table. -/
structure UserRow where
  id : Int
  name : String
  token : String
  leader_card_id : Int
deriving DecidableEq

/-- A row of the `room` table; also the shape of `RoomInfo` in model.py,
whose fields are exactly these columns. -/
structure RoomRow where
  room_id : Int
  live_id : Int
  status : WaitRoomStatus
  joined_user_count : Int
  max_user_count : Int
  created_user_id : Int
deriving DecidableEq

/-- A row of the `room_member` table. -/
structure RoomMemberRow where
  room_id : Int
  user_id : Int
  select_difficulty : LiveDifficulty
  is_host : Bool
deriving DecidableEq

/-- Mirrors `RoomUser` in model.py (one member view returned by `wait_room`). -/
structure RoomUser where
  user_id : Int
  name : String
  leader_card_id : Int
  select_difficulty : LiveDifficulty
  is_me : Bool
  is_host : Bool
deriving DecidableEq

/-- The database state: the three tables plus the `room` table's
auto-increment counter (`result.lastrowid` of the next room INSERT). -/
structure DB where
  rooms : List RoomRow
  room_members : List RoomMemberRow
  users : List UserRow
  next_room_id : Int
deriving DecidableEq

/-- A fresh database: no rooms and no memberships yet, an arbitrary
pre-registered `user` table, auto-increment counter at 1. -/
def DB.init (users : List UserRow) : DB :=
  { rooms := [], room_members := [], users := users, next_room_id := 1 }

/-- Modelled from the spec: the `room` table's schema is not under src/
(only `db.py`'s engine setup is imported there), so the DEFAULT value of the
`max_user_count` column comes from the spec, which fixes the capacity at 4
("max_user_count (fixed capacity, e.g. 4)", Scenario A).  Likewise the
`joined_user_count` column defaults to 0 ("inserts a new Room with
status = Waiting, joined_user_count = 0"). -/
def defaultMaxUserCount : Int := 4

/-- Semantics of a SQLAlchemy cursor result: `all` returns every remaining
row and closes the result set, so a second call to `all` on the same result
returns the empty list. -/
structure CursorResult (α : Type) where
  rows : List α

/-- The `Result.all()` call: yields the remaining rows and the consumed cursor. -/
def CursorResult.all (r : CursorResult α) : List α × CursorResult α :=
  (r.rows, { rows := [] })

/-- Mirrors `get_room_info_from_id` (model.py:203-217): SELECT the `room` row
with the given `room_id`; `result.one()` raises unless exactly one row matched,
and the `except` clause turns any such exception into `None`. -/
def get_room_info_from_id (db : DB) (room_id : Int) : Option RoomRow :=
  match db.rooms.filter (fun r => r.room_id == room_id) with
  | [row] => some row
  | _ => none

/-- Mirrors `_join_room` (model.py:129-153): re-fetch the room, INSERT a
`room_member` row with `is_host = (room_info.created_user_id == user_info.id)`,
then UPDATE the room's `joined_user_count` to the fetched value plus 1.
When the room is absent, `room_info.created_user_id` raises `AttributeError`
(modelled as `none`) before any write happens. -/
def _join_room (db : DB) (room_id : Int) (user_info : SafeUser)
    (difficulty : LiveDifficulty) : Option DB :=
  match get_room_info_from_id db room_id with
  | none => none
  | some room_info =>
    some { db with
      room_members := db.room_members ++
        [{ room_id := room_id, user_id := user_info.id,
           select_difficulty := difficulty,
           is_host := room_info.created_user_id == user_info.id }],
      rooms := db.rooms.map fun r =>
        if r.room_id == room_id then
          { r with joined_user_count := room_info.joined_user_count + 1 }
        else r }

/-- Mirrors `_create_room` (model.py:156-165): INSERT a `room` row with
`status = 1` (Waiting) and `created_user_id = user_info.id`; the unnamed
columns take their schema defaults (see `defaultMaxUserCount`); returns
`result.lastrowid`. -/
def _create_room (db : DB) (user_info : SafeUser) (live_id : Int) : Int × DB :=
  let rid := db.next_room_id
  (rid, { db with
    rooms := db.rooms ++
      [{ room_id := rid, live_id := live_id, status := WaitRoomStatus.Waiting,
         joined_user_count := 0, max_user_count := defaultMaxUserCount,
         created_user_id := user_info.id }],
    next_room_id := rid + 1 })

/-- Mirrors `create_room` (model.py:168-173): one transaction running
`_create_room` then `_join_room` for the creator, returning the new room id. -/
def create_room (db : DB) (user_info : SafeUser) (live_id : Int)
    (difficulty : LiveDifficulty) : Option (Int × DB) :=
  let res := _create_room db user_info live_id
  match _join_room res.2 res.1 user_info difficulty with
  | none => none
  | some db2 => some (res.1, db2)

/-- Mirrors `_room_list` (model.py:176-195): SELECT every `room` row with the
given `live_id`, or every row at all when `live_id == 0`.  No status filter
appears in either query. -/
def _room_list (db : DB) (live_id : Int) : List RoomRow :=
  if live_id ≠ 0 then db.rooms.filter (fun r => r.live_id == live_id)
  else db.rooms

/-- Mirrors `room_list` (model.py:198-200). -/
def room_list (db : DB) (live_id : Int) : List RoomRow :=
  _room_list db live_id

/-- Mirrors `join_room` (model.py:220-235).  The Python body reads
`room.joined_user_count` before any branch, so a `None` room raises
`AttributeError` (the `bind` short-circuit) and the `room is None` test in
the third branch can never fire; the source's branch chain is kept as-is. -/
def join_room (db : DB) (user_info : SafeUser) (room_id : Int)
    (selected_difficulty : LiveDifficulty) : Option (JoinRoomResult × DB) :=
  (get_room_info_from_id db room_id).bind fun room =>
    if room.joined_user_count < room.max_user_count then
      (_join_room db room_id user_info selected_difficulty).map
        fun db1 => (JoinRoomResult.Ok, db1)
    else if room.joined_user_count ≥ room.max_user_count then
      some (JoinRoomResult.RoomFull, db)
    else if (some room : Option RoomRow).isNone then
      some (JoinRoomResult.Disbanded, db)
    else
      some (JoinRoomResult.OtherError, db)

/-- The rows produced by the SELECT in `_get_joined_users` (model.py:239-244):
`room_member` JOIN `user` ON `room_member.user_id = user.id` filtered by
`room_id`, projected to (user_id, name, leader_card_id, select_difficulty,
is_host). -/
def joinedRowsQuery (db : DB) (room_id : Int) :
    List (Int × String × Int × LiveDifficulty × Bool) :=
  (db.room_members.filter (fun m => m.room_id == room_id)).flatMap fun m =>
    (db.users.filter (fun u => u.id == m.user_id)).map fun u =>
      (m.user_id, u.name, u.leader_card_id, m.select_difficulty, m.is_host)

/-- Mirrors `_get_joined_users` (model.py:238-258): the debug
`print(result.all())` consumes the cursor, so the list comprehension calls
`result.all()` on an already-closed result and iterates no rows. -/
def _get_joined_users (db : DB) (room_id : Int) (user_id : Int) : List RoomUser :=
  let result : CursorResult (Int × String × Int × LiveDifficulty × Bool) :=
    { rows := joinedRowsQuery db room_id }
  let printed := result.all
  let remaining := printed.2.all
  remaining.1.map fun row =>
    { user_id := row.1, name := row.2.1, leader_card_id := row.2.2.1,
      select_difficulty := row.2.2.2.1,
      is_me := user_id == row.1, is_host := row.2.2.2.2 }

/-- Mirrors `wait_room` (model.py:261-268): `(None, None)` when the room is
absent, otherwise the room's status and the `_get_joined_users` list. -/
def wait_room (db : DB) (user : SafeUser) (room_id : Int) :
    Option WaitRoomStatus × Option (List RoomUser) :=
  match get_room_info_from_id db room_id with
  | none => (none, none)
  | some room => (some room.status, some (_get_joined_users db room_id user.id))

/-- One client operation against the room subsystem, for reasoning about
"every sequence of create_room and join_room operations" (spec §8). -/
inductive Op where
  | create (user : SafeUser) (live_id : Int) (difficulty : LiveDifficulty)
  | join (user : SafeUser) (room_id : Int) (difficulty : LiveDifficulty)

/-- Run one operation; a raised exception rolls the transaction back, leaving
the database unchanged. -/
def step (db : DB) (op : Op) : DB :=
  match op with
  | Op.create u live_id d =>
    match create_room db u live_id d with
    | none => db
    | some res => res.2
  | Op.join u rid d =>
    match join_room db u rid d with
    | none => db
    | some res => res.2

/-- Run a sequence of operations from a given database state. -/
def run (db : DB) (ops : List Op) : DB :=
  ops.foldl step db

/-- Number of `room_member` rows recorded for a given room. -/
def memberCount (ms : List RoomMemberRow) (rid : Int) : Int :=
  ((ms.filter fun m => m.room_id == rid).length : Int)

/-! Concrete fixtures used by witnesses and counterexamples. -/

/-- A registered user "a" with id 1. -/
def aliceRow : UserRow := { id := 1, name := "a", token := "t1", leader_card_id := 10 }

/-- A registered user "b" with id 2. -/
def bobRow : UserRow := { id := 2, name := "b", token := "t2", leader_card_id := 20 }

/-- The `SafeUser` view of `aliceRow`. -/
def alice : SafeUser := { id := 1, name := "a", leader_card_id := 10 }

/-- The `SafeUser` view of `bobRow`. -/
def bob : SafeUser := { id := 2, name := "b", leader_card_id := 20 }

/-- A database holding one dissolved, empty room with id 1 created by user 7. -/
def dissolvedDB : DB :=
  { rooms := [{ room_id := 1, live_id := 10, status := WaitRoomStatus.Dissolution,
                joined_user_count := 0, max_user_count := 4, created_user_id := 7 }],
    room_members := [], users := [], next_room_id := 2 }

/-- A database holding one waiting room with id 1 and two members (users 1 and 2). -/
def waitDB : DB :=
  { rooms := [{ room_id := 1, live_id := 10, status := WaitRoomStatus.Waiting,
                joined_user_count := 2, max_user_count := 4, created_user_id := 1 }],
    room_members :=
      [{ room_id := 1, user_id := 1, select_difficulty := LiveDifficulty.hard,
         is_host := true },
       { room_id := 1, user_id := 2, select_difficulty := LiveDifficulty.normal,
         is_host := false }],
    users := [aliceRow, bobRow], next_room_id := 2 }

/-- A database holding one waiting room with id 1 that is already full. -/
def fullDB : DB :=
  { rooms := [{ room_id := 1, live_id := 10, status := WaitRoomStatus.Waiting,
                joined_user_count := 4, max_user_count := 4, created_user_id := 1 }],
    room_members := [], users := [], next_room_id := 2 }

/-- The room row stored in `fullDB`. -/
def fullRoom : RoomRow :=
  { room_id := 1, live_id := 10, status := WaitRoomStatus.Waiting,
    joined_user_count := 4, max_user_count := 4, created_user_id := 1 }

/-- A database holding one room with id 1 whose status is LiveStart. -/
def listDB : DB :=
  { rooms := [{ room_id := 1, live_id := 5, status := WaitRoomStatus.LiveStart,
                joined_user_count := 2, max_user_count := 4, created_user_id := 7 }],
    room_members := [], users := [], next_room_id := 2 }

/-- A database holding one waiting room with id 1, one member in it, room for more. -/
def halfDB : DB :=
  { rooms := [{ room_id := 1, live_id := 10, status := WaitRoomStatus.Waiting,
                joined_user_count := 1, max_user_count := 4, created_user_id := 1 }],
    room_members :=
      [{ room_id := 1, user_id := 1, select_difficulty := LiveDifficulty.hard,
         is_host := true }],
    users := [aliceRow], next_room_id := 2 }

/-- The room row stored in `halfDB`. -/
def halfRoom : RoomRow :=
  { room_id := 1, live_id := 10, status := WaitRoomStatus.Waiting,
    joined_user_count := 1, max_user_count := 4, created_user_id := 1 }

/-- The trace creating one room (by alice) and then having alice join it again. -/
def creatorRejoinOps : List Op :=
  [Op.create alice 10 LiveDifficulty.hard, Op.join alice 1 LiveDifficulty.normal]

/-- The trace creating one room (by alice). -/
def createOnlyOps : List Op :=
  [Op.create alice 10 LiveDifficulty.hard]

/-- The room produced by `createOnlyOps`. -/
def createdRoom : RoomRow :=
  { room_id := 1, live_id := 10, status := WaitRoomStatus.Waiting,
    joined_user_count := 1, max_user_count := 4, created_user_id := 1 }

/-- The inductive invariant maintained by `create_room` and `join_room`:
room ids stay below the auto-increment counter, membership rows reference
allocated rooms, each room's counter is in range and matches its membership
rows, and host rows exist and belong to the creator. -/
structure DBInv (db : DB) : Prop where
  rooms_lt : ∀ r ∈ db.rooms, r.room_id < db.next_room_id
  members_lt : ∀ m ∈ db.room_members, m.room_id < db.next_room_id
  count_nonneg : ∀ r ∈ db.rooms, 0 ≤ r.joined_user_count
  count_le : ∀ r ∈ db.rooms, r.joined_user_count ≤ r.max_user_count
  count_eq : ∀ r ∈ db.rooms, r.joined_user_count = memberCount db.room_members r.room_id
  host_exists : ∀ r ∈ db.rooms,
    ∃ m, m ∈ db.room_members ∧ m.room_id = r.room_id ∧ m.is_host = true
  host_is_creator : ∀ m ∈ db.room_members, m.is_host = true →
    ∀ r ∈ db.rooms, r.room_id = m.room_id → m.user_id = r.created_user_id

/-! Shared lemmas about the embedded operations. -/

/-- Fetching a room succeeds exactly when the SELECT matches a single row. -/
theorem get_room_info_eq_some (db : DB) (rid : Int) (r : RoomRow) :
    get_room_info_from_id db rid = some r ↔
      db.rooms.filter (fun x => x.room_id == rid) = [r] := by
  unfold get_room_info_from_id
  cases h : db.rooms.filter (fun x => x.room_id == rid) with
  | nil => simp
  | cons a t =>
    cases t with
    | nil => simp
    | cons b t2 => simp

/-- A fetched room is a stored row whose id is the one requested. -/
theorem mem_of_get (db : DB) (rid : Int) (r : RoomRow)
    (h : get_room_info_from_id db rid = some r) :
    r ∈ db.rooms ∧ r.room_id = rid := by
  rw [get_room_info_eq_some] at h
  have hmem : r ∈ db.rooms.filter (fun x => x.room_id == rid) := by
    rw [h]; exact List.mem_singleton.mpr rfl
  have := List.mem_filter.mp hmem
  exact ⟨this.1, by simpa using this.2⟩

/-- When the fetch succeeds, every stored row with that id is the fetched one. -/
theorem eq_of_get (db : DB) (rid : Int) (r : RoomRow)
    (h : get_room_info_from_id db rid = some r)
    (r' : RoomRow) (hr' : r' ∈ db.rooms) (hid : r'.room_id = rid) : r' = r := by
  rw [get_room_info_eq_some] at h
  have hmem : r' ∈ db.rooms.filter (fun x => x.room_id == rid) :=
    List.mem_filter.mpr ⟨hr', by simp [hid]⟩
  rw [h] at hmem
  simpa using hmem

/-- Mapping a function that does not change a predicate commutes with filtering. -/
theorem filter_map_of_pres (f : α → α) (p : α → Bool)
    (hp : ∀ a, p (f a) = p a) (l : List α) :
    (l.map f).filter p = (l.filter p).map f := by
  induction l with
  | nil => rfl
  | cons a t ih =>
    simp only [List.map_cons, List.filter_cons, hp a]
    cases h : p a <;> simp [ih]

/-- The counter update in `_join_room` keeps each row's `room_id`. -/
theorem upd_room_id (rid : Int) (c : Int) (r : RoomRow) :
    ((if r.room_id == rid then { r with joined_user_count := c } else r) : RoomRow).room_id
      = r.room_id := by
  split <;> rfl

/-- The counter update in `_join_room` keeps each row's `max_user_count`. -/
theorem upd_max (rid : Int) (c : Int) (r : RoomRow) :
    ((if r.room_id == rid then { r with joined_user_count := c } else r) : RoomRow).max_user_count
      = r.max_user_count := by
  split <;> rfl

/-- The counter update in `_join_room` keeps each row's `created_user_id`. -/
theorem upd_created (rid : Int) (c : Int) (r : RoomRow) :
    ((if r.room_id == rid then { r with joined_user_count := c } else r) : RoomRow).created_user_id
      = r.created_user_id := by
  split <;> rfl

/-- Unfolding `_join_room` when the room fetch succeeds. -/
theorem join_room_aux_eq (db : DB) (rid : Int) (u : SafeUser) (d : LiveDifficulty)
    (room : RoomRow) (h : get_room_info_from_id db rid = some room) :
    _join_room db rid u d = some { db with
      room_members := db.room_members ++
        [{ room_id := rid, user_id := u.id, select_difficulty := d,
           is_host := room.created_user_id == u.id }],
      rooms := db.rooms.map fun r =>
        if r.room_id == rid then
          { r with joined_user_count := room.joined_user_count + 1 }
        else r } := by
  unfold _join_room
  rw [h]

/-- Unfolding `join_room` in the admitting branch. -/
theorem join_room_eq_ok (db : DB) (u : SafeUser) (rid : Int) (d : LiveDifficulty)
    (room : RoomRow) (h : get_room_info_from_id db rid = some room)
    (hlt : room.joined_user_count < room.max_user_count) :
    join_room db u rid d = some (JoinRoomResult.Ok, { db with
      room_members := db.room_members ++
        [{ room_id := rid, user_id := u.id, select_difficulty := d,
           is_host := room.created_user_id == u.id }],
      rooms := db.rooms.map fun r =>
        if r.room_id == rid then
          { r with joined_user_count := room.joined_user_count + 1 }
        else r }) := by
  unfold join_room
  rw [h, Option.some_bind, if_pos hlt, join_room_aux_eq db rid u d room h]
  rfl

/-- Unfolding `join_room` in the full-room branch. -/
theorem join_room_eq_full (db : DB) (u : SafeUser) (rid : Int) (d : LiveDifficulty)
    (room : RoomRow) (h : get_room_info_from_id db rid = some room)
    (hfull : room.max_user_count ≤ room.joined_user_count) :
    join_room db u rid d = some (JoinRoomResult.RoomFull, db) := by
  unfold join_room
  rw [h, Option.some_bind, if_neg (not_lt.mpr hfull), if_pos hfull]

/-- Appending one membership row bumps the member count of its room only. -/
theorem memberCount_append (ms : List RoomMemberRow) (m : RoomMemberRow) (rid : Int) :
    memberCount (ms ++ [m]) rid =
      memberCount ms rid + (if m.room_id == rid then 1 else 0) := by
  unfold memberCount
  rw [List.filter_append]
  cases h : (m.room_id == rid) <;> simp [List.filter, h]

/-- A member list none of whose rows mention `rid` counts zero for `rid`. -/
theorem memberCount_eq_zero (ms : List RoomMemberRow) (rid : Int)
    (h : ∀ m ∈ ms, m.room_id ≠ rid) : memberCount ms rid = 0 := by
  unfold memberCount
  have : ms.filter (fun m => m.room_id == rid) = [] := by
    rw [List.filter_eq_nil_iff]
    intro m hm
    simpa using h m hm
  rw [this]
  rfl

/-- A fresh database satisfies the invariant. -/
theorem inv_init (users : List UserRow) : DBInv (DB.init users) := by
  refine ⟨?_, ?_, ?_, ?_, ?_, ?_, ?_⟩ <;> intros <;> simp_all [DB.init]

/-- A successful admission preserves the invariant. -/
theorem inv_join_effect (db : DB) (rid : Int) (u : SafeUser) (d : LiveDifficulty)
    (room : RoomRow) (hget : get_room_info_from_id db rid = some room)
    (hlt : room.joined_user_count < room.max_user_count) (h : DBInv db) :
    DBInv { db with
      room_members := db.room_members ++
        [{ room_id := rid, user_id := u.id, select_difficulty := d,
           is_host := room.created_user_id == u.id }],
      rooms := db.rooms.map fun r =>
        if r.room_id == rid then
          { r with joined_user_count := room.joined_user_count + 1 }
        else r } := by
  obtain ⟨hmem, hrid⟩ := mem_of_get db rid room hget
  have huniq := eq_of_get db rid room hget
  have hridlt : rid < db.next_room_id := hrid ▸ h.rooms_lt room hmem
  refine ⟨?_, ?_, ?_, ?_, ?_, ?_, ?_⟩
  · intro r' hr'
    obtain ⟨r, hr, rfl⟩ := List.mem_map.mp hr'
    show _ < db.next_room_id
    rw [upd_room_id]
    exact h.rooms_lt r hr
  · intro m hm
    rcases List.mem_append.mp hm with hm | hm
    · exact h.members_lt m hm
    · have hm' : m =
          { room_id := rid, user_id := u.id, select_difficulty := d,
            is_host := room.created_user_id == u.id } := by simpa using hm
      subst hm'
      exact hridlt
  · intro r' hr'
    obtain ⟨r, hr, rfl⟩ := List.mem_map.mp hr'
    by_cases hb : r.room_id = rid
    · have hreq : r = room := huniq r hr hb
      subst hreq
      have h0 := h.count_nonneg r hr
      simp [hrid]
      omega
    · simp [hb]
      exact h.count_nonneg r hr
  · intro r' hr'
    obtain ⟨r, hr, rfl⟩ := List.mem_map.mp hr'
    by_cases hb : r.room_id = rid
    · have hreq : r = room := huniq r hr hb
      subst hreq
      simp [hrid]
      omega
    · simp [hb]
      exact h.count_le r hr
  · intro r' hr'
    obtain ⟨r, hr, rfl⟩ := List.mem_map.mp hr'
    show _ = memberCount (db.room_members ++ [_]) _
    rw [memberCount_append, upd_room_id]
    by_cases hb : r.room_id = rid
    · have hreq : r = room := huniq r hr hb
      subst hreq
      have hce := h.count_eq r hr
      simp [hrid] at hce ⊢
      omega
    · have hbne : (rid == r.room_id) = false := by
        simp
        omega
      simp [hb, hbne]
      exact h.count_eq r hr
  · intro r' hr'
    obtain ⟨r, hr, rfl⟩ := List.mem_map.mp hr'
    obtain ⟨m, hm, hmid, hmh⟩ := h.host_exists r hr
    refine ⟨m, List.mem_append_left _ hm, ?_, hmh⟩
    rw [upd_room_id]
    exact hmid
  · intro m hm hhost r' hr' hid
    obtain ⟨r, hr, rfl⟩ := List.mem_map.mp hr'
    rw [upd_room_id] at hid
    rw [upd_created]
    rcases List.mem_append.mp hm with hm | hm
    · exact h.host_is_creator m hm hhost r hr hid
    · have hm' : m =
          { room_id := rid, user_id := u.id, select_difficulty := d,
            is_host := room.created_user_id == u.id } := by simpa using hm
      subst hm'
      have hcu : room.created_user_id = u.id := by simpa using hhost
      have hreq : r = room := huniq r hr hid
      subst hreq
      exact hcu.symm

/-- Mapping a function that fixes every element of a list is the identity. -/
theorem map_id_of_eq (l : List α) (f : α → α) (h : ∀ a ∈ l, f a = a) :
    l.map f = l := by
  induction l with
  | nil => rfl
  | cons a t ih =>
    rw [List.map_cons, h a (by simp), ih fun x hx => h x (by simp [hx])]

/-- A `join_room` call preserves the invariant. -/
theorem inv_step_join (db : DB) (u : SafeUser) (rid : Int) (d : LiveDifficulty)
    (h : DBInv db) : DBInv (step db (Op.join u rid d)) := by
  show DBInv (match join_room db u rid d with | none => db | some res => res.2)
  cases hget : get_room_info_from_id db rid with
  | none =>
    have hj : join_room db u rid d = none := by
      unfold join_room
      rw [hget]
      rfl
    rw [hj]
    exact h
  | some room =>
    by_cases hlt : room.joined_user_count < room.max_user_count
    · rw [join_room_eq_ok db u rid d room hget hlt]
      exact inv_join_effect db rid u d room hget hlt h
    · rw [join_room_eq_full db u rid d room hget (not_lt.mp hlt)]
      exact h

/-- Unfolding `create_room`: fresh room row with counter 1 plus its host
membership row, provided the auto-increment counter is fresh. -/
theorem create_room_eq (db : DB) (u : SafeUser) (live_id : Int) (d : LiveDifficulty)
    (hrooms : ∀ r ∈ db.rooms, r.room_id < db.next_room_id) :
    create_room db u live_id d = some (db.next_room_id, { db with
      rooms := db.rooms ++
        [{ room_id := db.next_room_id, live_id := live_id,
           status := WaitRoomStatus.Waiting, joined_user_count := 1,
           max_user_count := defaultMaxUserCount, created_user_id := u.id }],
      room_members := db.room_members ++
        [{ room_id := db.next_room_id, user_id := u.id,
           select_difficulty := d, is_host := true }],
      next_room_id := db.next_room_id + 1 }) := by
  have hfilter : db.rooms.filter (fun x => x.room_id == db.next_room_id) = [] := by
    rw [List.filter_eq_nil_iff]
    intro r hr
    have := hrooms r hr
    simp
    omega
  have hget1 : get_room_info_from_id
      { db with
        rooms := db.rooms ++
          [{ room_id := db.next_room_id, live_id := live_id,
             status := WaitRoomStatus.Waiting, joined_user_count := 0,
             max_user_count := defaultMaxUserCount, created_user_id := u.id }],
        next_room_id := db.next_room_id + 1 }
      db.next_room_id = some
        { room_id := db.next_room_id, live_id := live_id,
          status := WaitRoomStatus.Waiting, joined_user_count := 0,
          max_user_count := defaultMaxUserCount, created_user_id := u.id } := by
    rw [get_room_info_eq_some]
    show (db.rooms ++
        [({ room_id := db.next_room_id, live_id := live_id,
            status := WaitRoomStatus.Waiting, joined_user_count := 0,
            max_user_count := defaultMaxUserCount,
            created_user_id := u.id } : RoomRow)]).filter
        (fun x => x.room_id == db.next_room_id) =
      [{ room_id := db.next_room_id, live_id := live_id,
         status := WaitRoomStatus.Waiting, joined_user_count := 0,
         max_user_count := defaultMaxUserCount, created_user_id := u.id }]
    rw [List.filter_append, hfilter]
    simp
  unfold create_room _create_room
  simp only [join_room_aux_eq _ _ u d _ hget1]
  simp only [Option.some.injEq, Prod.mk.injEq, DB.mk.injEq, beq_self_eq_true,
    List.map_append, and_true, true_and, List.map_cons, List.map_nil,
    if_pos, zero_add]
  congr 1
  apply map_id_of_eq
  intro r hr
  have := hrooms r hr
  have hne : ¬ ((r.room_id == db.next_room_id) = true) := by
    simp
    omega
  rw [if_neg hne]

/-- A `create_room` call preserves the invariant. -/
theorem inv_step_create (db : DB) (u : SafeUser) (live_id : Int) (d : LiveDifficulty)
    (h : DBInv db) : DBInv (step db (Op.create u live_id d)) := by
  show DBInv (match create_room db u live_id d with | none => db | some res => res.2)
  rw [create_room_eq db u live_id d h.rooms_lt]
  refine ⟨?_, ?_, ?_, ?_, ?_, ?_, ?_⟩
  · intro r hr
    rcases List.mem_append.mp hr with hr | hr
    · have := h.rooms_lt r hr
      show r.room_id < db.next_room_id + 1
      omega
    · have hr' : r.room_id = db.next_room_id := by
        simp at hr
        rw [hr]
      show r.room_id < db.next_room_id + 1
      omega
  · intro m hm
    rcases List.mem_append.mp hm with hm | hm
    · have := h.members_lt m hm
      show m.room_id < db.next_room_id + 1
      omega
    · have hm' : m.room_id = db.next_room_id := by
        simp at hm
        rw [hm]
      show m.room_id < db.next_room_id + 1
      omega
  · intro r hr
    rcases List.mem_append.mp hr with hr | hr
    · exact h.count_nonneg r hr
    · simp at hr
      rw [hr]
      norm_num
  · intro r hr
    rcases List.mem_append.mp hr with hr | hr
    · exact h.count_le r hr
    · simp at hr
      rw [hr]
      show (1 : Int) ≤ defaultMaxUserCount
      norm_num [defaultMaxUserCount]
  · intro r hr
    show _ = memberCount (db.room_members ++ [_]) _
    rw [memberCount_append]
    rcases List.mem_append.mp hr with hr | hr
    · have hlt := h.rooms_lt r hr
      have hne : ((db.next_room_id : Int) == r.room_id) = false := by
        simp
        omega
      rw [hne]
      simpa using h.count_eq r hr
    · simp at hr
      rw [hr]
      have hz : memberCount db.room_members db.next_room_id = 0 := by
        apply memberCount_eq_zero
        intro m hm
        have := h.members_lt m hm
        omega
      simp [hz]
  · intro r hr
    rcases List.mem_append.mp hr with hr | hr
    · obtain ⟨m, hm, hmid, hmh⟩ := h.host_exists r hr
      exact ⟨m, List.mem_append_left _ hm, hmid, hmh⟩
    · simp at hr
      refine ⟨{ room_id := db.next_room_id, user_id := u.id,
                select_difficulty := d, is_host := true }, ?_, ?_, rfl⟩
      · exact List.mem_append_right _ (by simp)
      · rw [hr]
  · intro m hm hhost r hr hid
    rcases List.mem_append.mp hm with hm | hm
    · rcases List.mem_append.mp hr with hr | hr
      · exact h.host_is_creator m hm hhost r hr hid
      · have := h.members_lt m hm
        have hr' : r.room_id = db.next_room_id := by
          simp at hr
          rw [hr]
        omega
    · have hm' : m =
          { room_id := db.next_room_id, user_id := u.id,
            select_difficulty := d, is_host := true } := by simpa using hm
      subst hm'
      rcases List.mem_append.mp hr with hr | hr
      · have := h.rooms_lt r hr
        simp at hid
        omega
      · have hr' : r =
            { room_id := db.next_room_id, live_id := live_id,
              status := WaitRoomStatus.Waiting, joined_user_count := 1,
              max_user_count := defaultMaxUserCount,
              created_user_id := u.id } := by simpa using hr
        subst hr'
        rfl

/-- Every operation preserves the invariant. -/
theorem inv_step (db : DB) (op : Op) (h : DBInv db) : DBInv (step db op) := by
  cases op with
  | create u live_id d => exact inv_step_create db u live_id d h
  | join u rid d => exact inv_step_join db u rid d h

/-- The invariant holds after any run from an invariant state. -/
theorem inv_run (ops : List Op) (db : DB) (h : DBInv db) : DBInv (run db ops) := by
  induction ops generalizing db with
  | nil => exact h
  | cons op t ih => exact ih (step db op) (inv_step db op h)

/-! Claim theorems. -/

/-- C1: the claim says `join_room` on a nonexistent room id returns
`Disbanded`; the code instead dereferences the absent room
(`room.joined_user_count` on `None`) before any branch, so the call raises
and produces no `JoinRoomResult` at all: on a fresh database and
room_id = 9999 the embedded call aborts (`none`). -/
theorem c1_join_room_missing_room_raises :
    join_room (DB.init []) alice 9999 LiveDifficulty.normal = none := rfl

/-- C2: the claim says `wait_room` returns one member view per membership
row; the code's debug `print(result.all())` consumes the cursor, so the
returned member list is always empty — here the room has 2 membership rows
and the join query produced 2 rows, yet `wait_room` answers
`(Waiting, [])`. -/
theorem c2_wait_room_empty_member_list :
    wait_room waitDB bob 1 = (some WaitRoomStatus.Waiting, some []) ∧
    (waitDB.room_members.filter fun m => m.room_id == 1).length = 2 ∧
    (joinedRowsQuery waitDB 1).length = 2 :=
  ⟨rfl, rfl, rfl⟩

/-- C3: the claim says a non-Waiting room rejects joins with `Disbanded`;
the code never inspects `status`: joining a Dissolution-status room with
spare capacity returns `Ok` and inserts a membership row. -/
theorem c3_join_room_ignores_status :
    (join_room dissolvedDB bob 1 LiveDifficulty.normal).map Prod.fst =
      some JoinRoomResult.Ok ∧
    (join_room dissolvedDB bob 1 LiveDifficulty.normal).map
      (fun res => res.2.room_members) =
      some [{ room_id := 1, user_id := 2,
              select_difficulty := LiveDifficulty.normal, is_host := false }] :=
  ⟨rfl, rfl⟩

/-- C4: when the room exists, its status is Waiting and
`joined_user_count < max_user_count`, `join_room` inserts exactly one
membership row with `is_host = (user.id == room.created_user_id)`,
increments that room's counter by exactly 1, and returns `Ok`. -/
theorem c4_join_room_admits (db : DB) (u : SafeUser) (rid : Int)
    (d : LiveDifficulty) (room : RoomRow)
    (hget : get_room_info_from_id db rid = some room)
    (hwait : room.status = WaitRoomStatus.Waiting)
    (hlt : room.joined_user_count < room.max_user_count) :
    ∃ db',
      join_room db u rid d = some (JoinRoomResult.Ok, db') ∧
      db'.room_members = db.room_members ++
        [{ room_id := rid, user_id := u.id, select_difficulty := d,
           is_host := u.id == room.created_user_id }] ∧
      get_room_info_from_id db' rid =
        some { room with joined_user_count := room.joined_user_count + 1 } := by
  refine ⟨_, join_room_eq_ok db u rid d room hget hlt, ?_, ?_⟩
  · have hsymm : (room.created_user_id == u.id) = (u.id == room.created_user_id) := by
      by_cases hcu : room.created_user_id = u.id
      · simp [hcu]
      · have h1 : (room.created_user_id == u.id) = false := by simp [hcu]
        have h2 : (u.id == room.created_user_id) = false := by
          simp
          exact fun hx => hcu hx.symm
        rw [h1, h2]
    show db.room_members ++ _ = db.room_members ++ _
    rw [hsymm]
  · have hf := (get_room_info_eq_some db rid room).mp hget
    have hrid := (mem_of_get db rid room hget).2
    rw [get_room_info_eq_some]
    have hcomm := filter_map_of_pres
      (fun r => if r.room_id == rid then
        { r with joined_user_count := room.joined_user_count + 1 } else r)
      (fun x => x.room_id == rid)
      (fun a => by
        show ((if a.room_id == rid then
            { a with joined_user_count := room.joined_user_count + 1 }
          else a).room_id == rid) = (a.room_id == rid)
        rw [upd_room_id]) db.rooms
    show (db.rooms.map fun r => if r.room_id == rid then
        { r with joined_user_count := room.joined_user_count + 1 } else r).filter
        (fun x => x.room_id == rid) = _
    rw [hcomm, hf]
    simp [hrid]

/-- C4 witness: the concrete half-full waiting room of `halfDB`. -/
theorem c4_join_room_admits_witness :
    ∃ db',
      join_room halfDB bob 1 LiveDifficulty.normal = some (JoinRoomResult.Ok, db') ∧
      db'.room_members = halfDB.room_members ++
        [{ room_id := 1, user_id := bob.id,
           select_difficulty := LiveDifficulty.normal,
           is_host := bob.id == halfRoom.created_user_id }] ∧
      get_room_info_from_id db' 1 =
        some { halfRoom with joined_user_count := halfRoom.joined_user_count + 1 } :=
  c4_join_room_admits halfDB bob 1 LiveDifficulty.normal halfRoom rfl rfl (by decide)

/-- C5: when the room exists, its status is Waiting and
`joined_user_count >= max_user_count`, `join_room` returns `RoomFull` as a
value and leaves the whole database state unchanged. -/
theorem c5_join_room_full (db : DB) (u : SafeUser) (rid : Int)
    (d : LiveDifficulty) (room : RoomRow)
    (hget : get_room_info_from_id db rid = some room)
    (hwait : room.status = WaitRoomStatus.Waiting)
    (hfull : room.joined_user_count ≥ room.max_user_count) :
    join_room db u rid d = some (JoinRoomResult.RoomFull, db) :=
  join_room_eq_full db u rid d room hget hfull

/-- C5 witness: the concrete full waiting room of `fullDB`. -/
theorem c5_join_room_full_witness :
    join_room fullDB bob 1 LiveDifficulty.normal =
      some (JoinRoomResult.RoomFull, fullDB) :=
  c5_join_room_full fullDB bob 1 LiveDifficulty.normal fullRoom rfl rfl (by decide)

/-- C6: `create_room` inserts a new Waiting room whose `created_user_id` is
the host, admits the host as its only member with `is_host = true`, leaves
`joined_user_count` at 1, and returns the new room's identifier; stated for
any database whose auto-increment counter is fresh (true of every reachable
state, and of the modelled schema's AUTO_INCREMENT column). -/
theorem c6_create_room_spec (db : DB) (u : SafeUser) (live_id : Int)
    (d : LiveDifficulty)
    (hrooms : ∀ r ∈ db.rooms, r.room_id < db.next_room_id)
    (hmembers : ∀ m ∈ db.room_members, m.room_id < db.next_room_id) :
    ∃ db',
      create_room db u live_id d = some (db.next_room_id, db') ∧
      get_room_info_from_id db' db.next_room_id =
        some { room_id := db.next_room_id, live_id := live_id,
               status := WaitRoomStatus.Waiting, joined_user_count := 1,
               max_user_count := defaultMaxUserCount, created_user_id := u.id } ∧
      (db'.room_members.filter fun m => m.room_id == db.next_room_id) =
        [{ room_id := db.next_room_id, user_id := u.id,
           select_difficulty := d, is_host := true }] := by
  refine ⟨_, create_room_eq db u live_id d hrooms, ?_, ?_⟩
  · rw [get_room_info_eq_some]
    show (db.rooms ++
        [({ room_id := db.next_room_id, live_id := live_id,
            status := WaitRoomStatus.Waiting, joined_user_count := 1,
            max_user_count := defaultMaxUserCount,
            created_user_id := u.id } : RoomRow)]).filter
        (fun x => x.room_id == db.next_room_id) = _
    rw [List.filter_append]
    have hfilter : db.rooms.filter (fun x => x.room_id == db.next_room_id) = [] := by
      rw [List.filter_eq_nil_iff]
      intro r hr
      have := hrooms r hr
      simp
      omega
    rw [hfilter]
    simp
  · show (db.room_members ++
        [({ room_id := db.next_room_id, user_id := u.id,
            select_difficulty := d, is_host := true } : RoomMemberRow)]).filter
        (fun m => m.room_id == db.next_room_id) = _
    rw [List.filter_append]
    have hfilter : db.room_members.filter
        (fun m => m.room_id == db.next_room_id) = [] := by
      rw [List.filter_eq_nil_iff]
      intro m hm
      have := hmembers m hm
      simp
      omega
    rw [hfilter]
    simp

/-- C6 witness: alice creates a room on a fresh database. -/
theorem c6_create_room_spec_witness :
    ∃ db',
      create_room (DB.init [aliceRow]) alice 10 LiveDifficulty.hard =
        some ((DB.init [aliceRow]).next_room_id, db') ∧
      get_room_info_from_id db' (DB.init [aliceRow]).next_room_id =
        some { room_id := (DB.init [aliceRow]).next_room_id, live_id := 10,
               status := WaitRoomStatus.Waiting, joined_user_count := 1,
               max_user_count := defaultMaxUserCount,
               created_user_id := alice.id } ∧
      (db'.room_members.filter fun m =>
          m.room_id == (DB.init [aliceRow]).next_room_id) =
        [{ room_id := (DB.init [aliceRow]).next_room_id, user_id := alice.id,
           select_difficulty := LiveDifficulty.hard, is_host := true }] :=
  c6_create_room_spec (DB.init [aliceRow]) alice 10 LiveDifficulty.hard
    (by simp [DB.init]) (by simp [DB.init])

/-- C7 counterexample: `room_list` does not exclude non-Waiting rooms — on a
store holding one LiveStart room with live_id 5, the listing for live_id 5
contains a room whose status is not Waiting. -/
theorem c7_room_list_includes_non_waiting :
    ∃ r ∈ room_list listDB 5, r.status ≠ WaitRoomStatus.Waiting := by decide

/-- C7 amended: `room_list` returns exactly the stored rooms whose `live_id`
matches the argument — regardless of their status — and every stored room
when the sentinel value 0 is supplied. -/
theorem c7_room_list_mem (db : DB) (live_id : Int) (r : RoomRow) :
    r ∈ room_list db live_id ↔
      r ∈ db.rooms ∧ (live_id = 0 ∨ r.live_id = live_id) := by
  unfold room_list _room_list
  by_cases h0 : live_id = 0
  · simp [h0]
  · simp [h0, List.mem_filter]

/-- C8: after every sequence of create_room and join_room operations from a
fresh database, every room's `joined_user_count` lies between 0 and
`max_user_count` and equals the number of membership rows recorded for that
room. -/
theorem c8_counter_invariant (users : List UserRow) (ops : List Op)
    (r : RoomRow) (hr : r ∈ (run (DB.init users) ops).rooms) :
    0 ≤ r.joined_user_count ∧
    r.joined_user_count ≤ r.max_user_count ∧
    r.joined_user_count =
      memberCount (run (DB.init users) ops).room_members r.room_id := by
  have h := inv_run ops (DB.init users) (inv_init users)
  exact ⟨h.count_nonneg r hr, h.count_le r hr, h.count_eq r hr⟩

/-- C8 witness: the single room produced by `createOnlyOps`. -/
theorem c8_counter_invariant_witness :
    0 ≤ createdRoom.joined_user_count ∧
    createdRoom.joined_user_count ≤ createdRoom.max_user_count ∧
    createdRoom.joined_user_count =
      memberCount (run (DB.init [aliceRow]) createOnlyOps).room_members
        createdRoom.room_id :=
  c8_counter_invariant [aliceRow] createOnlyOps createdRoom (by decide)

/-- C9 counterexample: after alice creates a room and then joins her own room
again through `join_room`, that room has two membership rows with
`is_host = true`, not exactly one. -/
theorem c9_duplicate_host_rows :
    ∃ r ∈ (run (DB.init [aliceRow]) creatorRejoinOps).rooms,
      ((run (DB.init [aliceRow]) creatorRejoinOps).room_members.filter
        fun m => m.room_id == r.room_id && m.is_host).length = 2 := by decide

/-- C9 amended: after every sequence of create_room and join_room operations
from a fresh database, every room has at least one membership row with
`is_host = true`, and every membership row of that room with
`is_host = true` has `user_id` equal to the room's `created_user_id`
(exactly one such row is not guaranteed, since the creator may re-join). -/
theorem c9_host_rows (users : List UserRow) (ops : List Op)
    (r : RoomRow) (hr : r ∈ (run (DB.init users) ops).rooms) :
    (∃ m, m ∈ (run (DB.init users) ops).room_members ∧
      m.room_id = r.room_id ∧ m.is_host = true) ∧
    (∀ m ∈ (run (DB.init users) ops).room_members,
      m.room_id = r.room_id → m.is_host = true →
        m.user_id = r.created_user_id) := by
  have h := inv_run ops (DB.init users) (inv_init users)
  exact ⟨h.host_exists r hr, fun m hm hmid hmh =>
    h.host_is_creator m hm hmh r hr hmid.symm⟩

/-- C9 witness: the single room produced by `createOnlyOps`. -/
theorem c9_host_rows_witness :
    (∃ m, m ∈ (run (DB.init [aliceRow]) createOnlyOps).room_members ∧
      m.room_id = createdRoom.room_id ∧ m.is_host = true) ∧
    (∀ m ∈ (run (DB.init [aliceRow]) createOnlyOps).room_members,
      m.room_id = createdRoom.room_id → m.is_host = true →
        m.user_id = createdRoom.created_user_id) :=
  c9_host_rows [aliceRow] createOnlyOps createdRoom (by decide)

/-- C10: whenever the referenced room exists, `join_room` answers and the
answer is `Ok` or `RoomFull`; the `Disbanded` and `OtherError` branches are
unreachable because the two counter comparisons are exhaustive and come
first. -/
theorem c10_join_room_total (db : DB) (u : SafeUser) (rid : Int)
    (d : LiveDifficulty) (room : RoomRow)
    (hget : get_room_info_from_id db rid = some room) :
    ∃ res db', join_room db u rid d = some (res, db') ∧
      (res = JoinRoomResult.Ok ∨ res = JoinRoomResult.RoomFull) := by
  by_cases hlt : room.joined_user_count < room.max_user_count
  · exact ⟨_, _, join_room_eq_ok db u rid d room hget hlt, Or.inl rfl⟩
  · exact ⟨_, _, join_room_eq_full db u rid d room hget (not_lt.mp hlt), Or.inr rfl⟩

/-- C10 witness: the concrete full waiting room of `fullDB`. -/
theorem c10_join_room_total_witness :
    ∃ res db', join_room fullDB bob 1 LiveDifficulty.normal = some (res, db') ∧
      (res = JoinRoomResult.Ok ∨ res = JoinRoomResult.RoomFull) :=
  c10_join_room_total fullDB bob 1 LiveDifficulty.normal fullRoom rfl
